import Mathlib

set_option maxRecDepth 8192

/-!
Shallow embedding of the MFA-SRV client-side decision components.

Sources embedded here:
* `src/Agents/MfaSrv.DcAgent.Native/NamedPipeClient.cpp`
  (`BuildQueryJson`, `ParseDecisionFromJson`, `ConnectToPipe`,
  `SendAndReceive`, `QueryDcAgent`)
* `src/Agents/MfaSrv.EndpointAgent.Native/NamedPipeClient.cpp`
  (`MfaPipeConnect`, `JsonAppendEscaped`, `JsonGetString`)
* `src/Agents/MfaSrv.EndpointAgent.Native/MfaSrvCredential.cpp`
  (`_PerformMfaCheck`, `GetSerialization`, `ReportResult`, `SetDeselected`)

Modelling conventions:
* C byte strings become `List Char`; a `char*` C string is NUL-free by
  construction, while the explicit `(json, jsonLen)` pair taken by
  `ParseDecisionFromJson` is modelled as the list of the `jsonLen` received
  bytes, which may contain embedded NUL (`'\x00'`) bytes.
* Stack buffers are taken large enough that no truncation occurs, except
  where a bound is load-bearing (the 4096-byte query buffer of
  `BuildQueryJson`, the 250-byte pattern buffer of `JsonGetString`).
* The Win32 environment (pipe availability, write/read outcomes, received
  bytes, tick clock) is an explicit environment value passed to each
  modelled call.
-/

namespace MfaSrv

/-- Case-insensitive byte comparison as performed by `_strnicmp`. -/
def charEqI (a b : Char) : Bool := a.toLower == b.toLower

namespace Dc

/-- Decision code 0, `MFASRV_DECISION_ALLOW` (LsaAuthPackage.h line 34). -/
def MFASRV_DECISION_ALLOW : Nat := 0

/-- Decision code 1, `MFASRV_DECISION_REQUIRE_MFA` (LsaAuthPackage.h line 35). -/
def MFASRV_DECISION_REQUIRE_MFA : Nat := 1

/-- Decision code 2, `MFASRV_DECISION_DENY` (LsaAuthPackage.h line 36). -/
def MFASRV_DECISION_DENY : Nat := 2

/-- Decision code 3, `MFASRV_DECISION_PENDING` (LsaAuthPackage.h line 37). -/
def MFASRV_DECISION_PENDING : Nat := 3

/-- The scan key of `ParseDecisionFromJson`: the 11 characters of the C
literal `key = "\"decision\":"` (NamedPipeClient.cpp line 39). -/
def decisionKeyChars : List Char := "\"decision\":".toList

/-- The `keyLen` constant of `ParseDecisionFromJson` is 12, one more than the
actual length of `decisionKeyChars` (NamedPipeClient.cpp line 40). -/
def decisionKeyLen : Nat := 12

/-- One candidate-position test of `ParseDecisionFromJson`'s scan:
`_strnicmp(&json[i], key, 12) == 0` (NamedPipeClient.cpp line 44).
`_strnicmp` compares case-insensitively and stops at a NUL in either
argument; since the key holds 11 non-NUL characters followed by its
terminator, the comparison succeeds exactly when the 11 key characters match
at `i` and the 12th compared byte `json[i+11]` is a NUL byte. -/
def decisionKeyMatchAt (json : List Char) (i : Nat) : Bool :=
  ((List.range 11).all fun j =>
      charEqI (json.getD (i + j) '\x00') (decisionKeyChars.getD j '\x00')) &&
    (json.getD (i + 11) '\x00' == '\x00')

/-- One loop iteration body of `ParseDecisionFromJson` (NamedPipeClient.cpp
lines 44-49): on a key match, `value = json[i + keyLen] - '0'` is returned
when it lies in `0..3`; otherwise the scan continues (`none`). -/
def tryDecisionAt (json : List Char) (i : Nat) : Option Nat :=
  if json.getD i '\x00' == '"' && decisionKeyMatchAt json i then
    let c := json.getD (i + decisionKeyLen) '\x00'
    if 48 ≤ c.toNat && c.toNat ≤ 51 then some (c.toNat - 48) else none
  else none

/-- The scan loop `for (int i = 0; i < jsonLen - keyLen; i++)` of
`ParseDecisionFromJson` (NamedPipeClient.cpp lines 42-50), written with
explicit fuel so that the definition is structural; `ParseDecisionFromJson`
supplies fuel `json.length`, which can never run out before the loop bound
`i < jsonLen - 12` fails. -/
def parseFrom (json : List Char) : Nat → Nat → Nat
  | 0, _ => MFASRV_DECISION_ALLOW
  | fuel + 1, i =>
    if i < json.length - decisionKeyLen then
      match tryDecisionAt json i with
      | some v => v
      | none => parseFrom json fuel (i + 1)
    else MFASRV_DECISION_ALLOW

/-- Model of `ParseDecisionFromJson` (NamedPipeClient.cpp lines 36-54):
scans the `jsonLen` received bytes for the `"decision":` key and falls back
to `MFASRV_DECISION_ALLOW` when no parsable decision is found. -/
def ParseDecisionFromJson (json : List Char) : Nat :=
  parseFrom json json.length 0

/-- Model of `BuildQueryJson` (NamedPipeClient.cpp lines 14-33):
`_snprintf_s` with `_TRUNCATE` into a 4096-byte buffer; the field values are
substituted raw (no escaping). On truncation `_snprintf_s` yields -1 and the
caller treats the build as failed, so the model returns `none` when the
formatted text does not fit the buffer together with its terminator. -/
def buildQueryJson (user domain ip ws : List Char) (proto : Nat) :
    Option (List Char) :=
  let s :=
    "\x7b\"userName\":\"".toList ++ user ++
    "\",\"domain\":\"".toList ++ domain ++
    "\",\"sourceIp\":\"".toList ++ ip ++
    "\",\"workstation\":\"".toList ++ ws ++
    "\",\"protocol\":".toList ++ (Nat.repr proto).toList ++ "\x7d".toList
  if s.length ≤ 4095 then some s else none

/-- One environment event for an iteration of `ConnectToPipe`'s retry loop:
what `CreateFileW` reports, and for the busy case how many clock ticks the
`WaitNamedPipeW` call consumes (before clamping) and whether it reports
success. -/
inductive ConnEvent where
  | success (modeOk : Bool)
  | otherError
  | busy (advance : Nat) (waitOk : Bool)
deriving DecidableEq

/-- Whether a connect event is the `ERROR_PIPE_BUSY` case. -/
def ConnEvent.isBusy : ConnEvent → Bool
  | .busy _ _ => true
  | _ => false

/-- Result of the modelled `ConnectToPipe`, carrying the final value of the
tick counter.  `failed` covers a non-busy `CreateFileW` error;
`modeFailed` is the `SetNamedPipeHandleState` failure path, on which the
freshly opened handle is closed before returning `INVALID_HANDLE_VALUE`
(NamedPipeClient.cpp lines 107-112). `outOfFuel` is a model artefact proved
unreachable. -/
inductive ConnResult where
  | handle (elapsed : Nat)
  | failed (elapsed : Nat)
  | modeFailed (elapsed : Nat)
  | timedOut (elapsed : Nat)
  | outOfFuel
deriving DecidableEq

/-- Final tick-counter value of a connect result. -/
def ConnResult.elapsedOf : ConnResult → Nat
  | .handle e => e
  | .failed e => e
  | .modeFailed e => e
  | .timedOut e => e
  | .outOfFuel => 0

/-- The retry loop of `ConnectToPipe` (NamedPipeClient.cpp lines 61-112).
Timing model: the tick counter (`GetTickCount() - startTick`) advances only
inside `WaitNamedPipeW`, by at least one tick (each wait advances the clock)
and by at most the wait bound `min remaining 500` passed at line 94; all
other operations take zero ticks.  The elapsed-versus-timeout checks at
lines 86 and 97 are modelled verbatim. -/
def connectLoopGo (env : Nat → ConnEvent) (timeoutMs : Nat) :
    Nat → Nat → Nat → ConnResult
  | 0, _, _ => .outOfFuel
  | fuel + 1, elapsed, i =>
    match env i with
    | .success modeOk =>
      if modeOk then .handle elapsed else .modeFailed elapsed
    | .otherError => .failed elapsed
    | .busy adv waitOk =>
      if timeoutMs ≤ elapsed then .timedOut elapsed
      else
        let remaining := timeoutMs - elapsed
        let w := min remaining 500
        let adv' := max 1 (min adv w)
        let e' := elapsed + adv'
        if waitOk then connectLoopGo env timeoutMs fuel e' (i + 1)
        else if timeoutMs ≤ e' then .timedOut e'
        else connectLoopGo env timeoutMs fuel e' (i + 1)

/-- Model of `ConnectToPipe` (NamedPipeClient.cpp lines 56-117): runs the
retry loop with fuel `timeoutMs + 1`, enough for every possible execution
because each busy iteration either returns or advances the tick counter. -/
def ConnectToPipe (env : Nat → ConnEvent) (timeoutMs : Nat) : ConnResult :=
  connectLoopGo env timeoutMs (timeoutMs + 1) 0 0

/-- Transport outcomes consumed by `SendAndReceive` once a pipe is open:
whether `WriteFile` succeeds, and the bytes delivered by `ReadFile` (`none`
is a read failure). -/
structure IoEnv where
  writeOk : Bool
  readResult : Option (List Char)

/-- Model of `SendAndReceive` (NamedPipeClient.cpp lines 119-146): a failed
write or read yields `MFASRV_DECISION_ALLOW`; otherwise the received bytes
are parsed by `ParseDecisionFromJson`. -/
def SendAndReceive (io : IoEnv) : Nat :=
  if io.writeOk then
    match io.readResult with
    | some resp => ParseDecisionFromJson resp
    | none => MFASRV_DECISION_ALLOW
  else MFASRV_DECISION_ALLOW

/-- Environment of one `QueryDcAgent` call. -/
structure DcEnv where
  connEnv : Nat → ConnEvent
  io : IoEnv

/-- Count of pipe handles opened and closed during a call. -/
structure DcTrace where
  opened : Nat
  closed : Nat
deriving DecidableEq

/-- Model of `QueryDcAgent` (NamedPipeClient.cpp lines 148-194): build the
query, connect (fail-open on failure), exchange one message, close the
handle, return the decision.  The trace records handle opens/closes,
including the open+close pair hidden inside `ConnectToPipe`'s
`SetNamedPipeHandleState` failure path. -/
def QueryDcAgent (env : DcEnv) (user domain ip ws : List Char)
    (proto : Nat) (timeoutMs : Nat) : Nat × DcTrace :=
  match buildQueryJson user domain ip ws proto with
  | none => (MFASRV_DECISION_ALLOW, ⟨0, 0⟩)
  | some _query =>
    match ConnectToPipe env.connEnv timeoutMs with
    | .handle _ => (SendAndReceive env.io, ⟨1, 1⟩)
    | .modeFailed _ => (MFASRV_DECISION_ALLOW, ⟨1, 1⟩)
    | _ => (MFASRV_DECISION_ALLOW, ⟨0, 0⟩)

end Dc

namespace Ep

/-- HRESULT values observable from the endpoint model. `eWin32` stands for
the `HRESULT_FROM_WIN32(GetLastError())` failure returned when `CreateFileW`
fails inside `MfaPipeConnect` (NamedPipeClient.cpp line 44). -/
inductive Hr where
  | sOk
  | sFalse
  | eFail
  | eAccessDenied
  | eWin32
deriving DecidableEq

/-- The `FAILED(hr)` macro: every code except the success codes `S_OK` and
`S_FALSE`. -/
def Hr.failed : Hr → Bool
  | .sOk => false
  | .sFalse => false
  | _ => true

/-- Model of `MfaPipeConnect` (NamedPipeClient.cpp lines 17-63):
`WaitNamedPipeW` with the fixed 3000 ms bound, then `CreateFileW`;
a `SetNamedPipeHandleState` failure falls back to byte mode and still
returns `S_OK`, so it does not appear as a distinct outcome.  The returned
`Bool` is whether `*phPipe` holds an open handle. -/
def mfaPipeConnect (waitOk createOk : Bool) : Hr × Bool :=
  if !waitOk then (.eFail, false)
  else if !createOk then (.eWin32, false)
  else (.sOk, true)

/-- One character's expansion by `JsonAppendEscaped` (NamedPipeClient.cpp
lines 190-198): quote, backslash, newline, carriage return and tab become
two-character escapes; everything else is copied through. -/
def escapeChar (c : Char) : List Char :=
  if c = '"' then ['\\', '"']
  else if c = '\\' then ['\\', '\\']
  else if c = '\n' then ['\\', 'n']
  else if c = '\r' then ['\\', 'r']
  else if c = '\t' then ['\\', 't']
  else [c]

/-- Model of `JsonAppendEscaped` (NamedPipeClient.cpp lines 180-207) on a
buffer large enough that none of the `pos < cbBuf` guards ever truncate. -/
def jsonEscape (s : List Char) : List Char :=
  (s.map escapeChar).flatten

/-- The first search pattern built by `JsonGetString` (NamedPipeClient.cpp
lines 247-256): `"key":"`, with the key truncated to the 249 characters that
fit the 256-byte pattern buffer under the `iPattern < 250` guard. -/
def keyPattern (key : List Char) : List Char :=
  '"' :: (key.take 249 ++ ['"', ':', '"'])

/-- The second search pattern of `JsonGetString` (NamedPipeClient.cpp lines
281-289): `"key": "` with a space after the colon, the key truncated to 247
characters under the `iPattern < 248` guard. -/
def keyPatternSpace (key : List Char) : List Char :=
  '"' :: (key.take 247 ++ ['"', ':', ' ', '"'])

/-- The pattern scan of `JsonGetString` (NamedPipeClient.cpp lines 259-276):
advance through the document to the first position where the pattern is a
prefix, and return the remainder after the pattern (`pFound`); `none` when
the pattern does not occur. -/
def findAfter (needle : List Char) : List Char → Option (List Char)
  | [] => none
  | c :: rest =>
    if needle.isPrefixOf (c :: rest) then some ((c :: rest).drop needle.length)
    else findAfter needle rest

/-- Unescaping of one escaped character by `JsonGetString` (NamedPipeClient.cpp
lines 322-331): the six recognized sequences, any other escaped character
copied through. -/
def unescapeChar (d : Char) : Char :=
  if d = '"' then '"'
  else if d = '\\' then '\\'
  else if d = '/' then '/'
  else if d = 'n' then '\n'
  else if d = 'r' then '\r'
  else if d = 't' then '\t'
  else d

/-- The value-extraction loop of `JsonGetString` (NamedPipeClient.cpp lines
314-344): copy until an unescaped quote, unescaping `\x` pairs; a trailing
lone backslash is copied as-is (the `*(p+1)` guard fails and the default
branch copies it). -/
def unescapeUntilQuote : List Char → List Char
  | [] => []
  | c :: rest =>
    if c = '\\' then
      match rest with
      | [] => [c]
      | d :: rest2 => unescapeChar d :: unescapeUntilQuote rest2
    else if c = '"' then []
    else c :: unescapeUntilQuote rest

/-- Model of `JsonGetString` (NamedPipeClient.cpp lines 237-353) on an output
buffer large enough not to truncate: try the no-space pattern, then the
spaced pattern; on a match extract the value; the returned `BOOL` is
`(iOut > 0)`, so an extracted empty value yields `FALSE`.  The second
component is the content of `pszOut` (empty unless a value was extracted). -/
def jsonGetString (json key : List Char) : Bool × List Char :=
  match findAfter (keyPattern key) json with
  | some rest => let v := unescapeUntilQuote rest; (!v.isEmpty, v)
  | none =>
    match findAfter (keyPatternSpace key) json with
    | some rest => let v := unescapeUntilQuote rest; (!v.isEmpty, v)
    | none => (false, [])

/-- Whether either of `JsonGetString`'s two search patterns occurs in the
document. -/
def patternFound (json key : List Char) : Bool :=
  (findAfter (keyPattern key) json).isSome ||
    (findAfter (keyPatternSpace key) json).isSome

/-- The key `"status"` used by `_PerformMfaCheck`. -/
def statusKey : List Char := "status".toList

/-- The key `"challengeId"` used by `_PerformMfaCheck`. -/
def challengeIdKey : List Char := "challengeId".toList

/-- The mutable members of `MfaSrvCredential` that the challenge state
machine touches (MfaSrvCredential.cpp lines 39-46): wide strings are
modelled as `List Char`, `SecureZeroMemory`'d buffers as `[]`. -/
structure CredState where
  username : List Char
  password : List Char
  otp : List Char
  challengeId : List Char
  mfaRequired : Bool
  mfaCompleted : Bool
deriving DecidableEq

/-- Environment of one `_PerformMfaCheck` call: connect outcome, the two
write outcomes, the two read outcomes (`none` = read failure), and the
workstation name reported by `GetComputerNameW`. -/
structure EpEnv where
  waitOk : Bool
  createOk : Bool
  send1Ok : Bool
  read1 : Option (List Char)
  send2Ok : Bool
  read2 : Option (List Char)
  workstation : List Char

/-- Observable I/O trace of an endpoint call: pipe handles opened and
closed, message sends attempted, and the body of the `submit_mfa` request
when one was sent. -/
structure EpTrace where
  opened : Nat
  closed : Nat
  sends : Nat
  submitted : Option (List Char)
deriving DecidableEq

/-- The `domain\user` split of `_PerformMfaCheck` (MfaSrvCredential.cpp
lines 633-662): on a backslash, the prefix becomes the domain (left empty
when its length is 0 or ≥ 256) and the rest the user; otherwise the domain
is `"."`. -/
def splitDomainUser (u : List Char) : List Char × List Char :=
  let pre := u.takeWhile (· ≠ '\\')
  if pre.length = u.length then (['.'], u)
  else
    (if 0 < pre.length ∧ pre.length < 256 then pre else [],
     u.drop (pre.length + 1))

/-- The preauth request built by `_PerformMfaCheck` (MfaSrvCredential.cpp
lines 664-673) via `JsonAppendRaw`/`JsonAppendEscaped`. -/
def buildPreauthJson (user domain ws : List Char) : List Char :=
  "\x7b\"type\":\"preauth\",\"userName\":\"".toList ++ jsonEscape user ++
    "\",\"domain\":\"".toList ++ jsonEscape domain ++
    "\",\"workstation\":\"".toList ++ jsonEscape ws ++ "\"\x7d".toList

/-- The submit request built by `_PerformMfaCheck` (MfaSrvCredential.cpp
lines 731-738). -/
def buildSubmitJson (challengeId otp : List Char) : List Char :=
  "\x7b\"type\":\"submit_mfa\",\"challengeId\":\"".toList ++
    jsonEscape challengeId ++ "\",\"response\":\"".toList ++
    jsonEscape otp ++ "\"\x7d".toList

/-- A document holding a single encoded field, assembled the way
`_PerformMfaCheck` builds its requests: a raw `\x7b"key":"` head, the
`JsonAppendEscaped` expansion of the value, and a raw `"\x7d` tail. -/
def encodeField (key v : List Char) : List Char :=
  '{' :: '"' :: (key ++ '"' :: ':' :: '"' :: (jsonEscape v ++ ['"', '}']))

/-- The OTP-submit leg of `_PerformMfaCheck` (MfaSrvCredential.cpp lines
726-770), entered with the post-challenge state `st1`.  Note that the pipe
is closed at line 750 immediately after the second read, before the
response is examined. -/
def performSubmit (env : EpEnv) (st1 : CredState) :
    Hr × CredState × EpTrace :=
  let req := buildSubmitJson st1.challengeId st1.otp
  if !env.send2Ok then (.eFail, st1, ⟨1, 1, 2, some req⟩)
  else
    match env.read2 with
    | none => (.eFail, st1, ⟨1, 1, 2, some req⟩)
    | some resp2 =>
      let status2 := (jsonGetString resp2 statusKey).2
      if status2.head? = some 'a' then
        (.sOk, { st1 with mfaCompleted := true }, ⟨1, 1, 2, some req⟩)
      else if status2.head? = some 'd' then
        (.eAccessDenied, st1, ⟨1, 1, 2, some req⟩)
      else (.eFail, st1, ⟨1, 1, 2, some req⟩)

/-- Model of `_PerformMfaCheck` (MfaSrvCredential.cpp lines 608-786):
connect, send the preauth request, read and decode the `status` field, and
dispatch on its first character; on `mfa_required` capture the challenge id
and, when an OTP is already pending, run the submit leg on the same pipe.
All transport and decode failures return `E_FAIL` (fail-open). -/
def performMfaCheck (env : EpEnv) (st : CredState) :
    Hr × CredState × EpTrace :=
  let conn := mfaPipeConnect env.waitOk env.createOk
  if conn.1.failed || !conn.2 then (.eFail, st, ⟨0, 0, 0, none⟩)
  else
    let _req := buildPreauthJson (splitDomainUser st.username).2
      (splitDomainUser st.username).1 env.workstation
    if !env.send1Ok then (.eFail, st, ⟨1, 1, 1, none⟩)
    else
      match env.read1 with
      | none => (.eFail, st, ⟨1, 1, 1, none⟩)
      | some resp1 =>
        let status1 := (jsonGetString resp1 statusKey).2
        match status1 with
        | [] => (.eFail, st, ⟨1, 1, 1, none⟩)
        | c :: _ =>
          if c = 'a' then
            (.sOk, { st with mfaRequired := false, mfaCompleted := true },
              ⟨1, 1, 1, none⟩)
          else if c = 'd' then (.eAccessDenied, st, ⟨1, 1, 1, none⟩)
          else if c = 'm' then
            let st1 := { st with
              challengeId := (jsonGetString resp1 challengeIdKey).2,
              mfaRequired := true, mfaCompleted := false }
            if !st.otp.isEmpty then performSubmit env st1
            else (.sFalse, st1, ⟨1, 1, 1, none⟩)
          else (.eFail, st, ⟨1, 1, 1, none⟩)

/-- Model of `ReportResult` (MfaSrvCredential.cpp lines 530-557): resets the
two MFA flags and zeroes the challenge id and the OTP; the password buffer
is not touched. -/
def reportResult (st : CredState) : CredState :=
  { st with mfaRequired := false, mfaCompleted := false,
            challengeId := [], otp := [] }

/-- Model of `SetDeselected` (MfaSrvCredential.cpp lines 183-203): zeroes
the password and the OTP; the MFA flags and the challenge id are not
touched. -/
def setDeselected (st : CredState) : CredState :=
  { st with password := [], otp := [] }

/-- Model of the `MfaSrvCredential` destructor (MfaSrvCredential.cpp lines
49-61): zeroes password, OTP and challenge id. -/
def credDestructor (st : CredState) : CredState :=
  { st with password := [], otp := [], challengeId := [] }

/-- The `CREDENTIAL_PROVIDER_GET_SERIALIZATION_RESPONSE` values produced by
`GetSerialization`. -/
inductive Cpgsr where
  | noCredentialNotFinished
  | noCredentialFinished
  | returnCredentialFinished
deriving DecidableEq

/-- The status messages `GetSerialization` can emit. -/
inductive GsMsg where
  | promptUsername
  | promptPassword
  | mfaDenied
  | promptOtp
  | packError
deriving DecidableEq

/-- Result of a modelled `GetSerialization` call. -/
structure GsOut where
  hr : Hr
  cpgsr : Cpgsr
  text : Option GsMsg
  state : CredState
  trace : EpTrace
deriving DecidableEq

/-- Model of `GetSerialization` (MfaSrvCredential.cpp lines 448-528).
`packOk` is whether `_PackCredentialSerialization` succeeds.  The
`ERROR_PIPE_NOT_CONNECTED` comparison at line 482 is kept, although
`_PerformMfaCheck` normalizes every connect failure to `E_FAIL`, so only
the `E_FAIL` disjunct can fire in the model. -/
def getSerialization (env : EpEnv) (packOk : Bool) (st : CredState) : GsOut :=
  if st.username.isEmpty then
    ⟨.sOk, .noCredentialNotFinished, some .promptUsername, st, ⟨0, 0, 0, none⟩⟩
  else if st.password.isEmpty then
    ⟨.sOk, .noCredentialNotFinished, some .promptPassword, st, ⟨0, 0, 0, none⟩⟩
  else
    let r := performMfaCheck env st
    let hrMfa := r.1
    let st' := r.2.1
    let tr := r.2.2
    if hrMfa = .eFail then
      if st'.mfaRequired && !st'.mfaCompleted && st'.otp.isEmpty then
        ⟨.sOk, .noCredentialNotFinished, some .promptOtp, st', tr⟩
      else if packOk then
        ⟨.sOk, .returnCredentialFinished, none, st', tr⟩
      else ⟨.sOk, .noCredentialNotFinished, some .packError, st', tr⟩
    else if hrMfa.failed then
      ⟨.sOk, .noCredentialFinished, some .mfaDenied, st', tr⟩
    else if st'.mfaRequired && !st'.mfaCompleted && st'.otp.isEmpty then
      ⟨.sOk, .noCredentialNotFinished, some .promptOtp, st', tr⟩
    else if packOk then
      ⟨.sOk, .returnCredentialFinished, none, st', tr⟩
    else ⟨.sOk, .noCredentialNotFinished, some .packError, st', tr⟩

end Ep

open Dc Ep

/-! Helper lemmas (shared). -/

/-- With no NUL byte in the received bytes, no scan position of
`ParseDecisionFromJson` can match: the 12-byte `_strnicmp` comparison
requires a NUL at offset `i + 11`, which under the loop bound lies strictly
inside the received bytes. -/
lemma tryDecisionAt_eq_none_of_no_nul (json : List Char) (i : Nat)
    (hi : i + 11 < json.length) (hn : '\x00' ∉ json) :
    tryDecisionAt json i = none := by
  unfold tryDecisionAt decisionKeyMatchAt
  simp
  intro _ _ h _
  rw [List.getElem?_eq_getElem hi] at h
  simp only [Option.getD_some] at h
  exact absurd (h ▸ List.getElem_mem hi) hn

/-- The scan loop returns `MFASRV_DECISION_ALLOW` on NUL-free input, from
any start index and with any fuel. -/
lemma parseFrom_eq_allow (json : List Char) (hn : '\x00' ∉ json) :
    ∀ fuel i, parseFrom json fuel i = MFASRV_DECISION_ALLOW := by
  intro fuel
  induction fuel with
  | zero => intro i; rfl
  | succ fuel ih =>
    intro i
    simp only [parseFrom]
    by_cases h : i < json.length - decisionKeyLen
    · have hi : i + 11 < json.length := by
        unfold decisionKeyLen at h; omega
      rw [if_pos h, tryDecisionAt_eq_none_of_no_nul json i hi hn]
      exact ih (i + 1)
    · rw [if_neg h]

/-- `ParseDecisionFromJson` yields `MFASRV_DECISION_ALLOW` on every NUL-free
response. -/
lemma ParseDecisionFromJson_eq_allow (json : List Char)
    (hn : '\x00' ∉ json) :
    ParseDecisionFromJson json = MFASRV_DECISION_ALLOW :=
  parseFrom_eq_allow json hn json.length 0

/-- The submit leg always records one opened and one closed handle. -/
lemma performSubmit_trace_balanced (env : EpEnv) (st1 : CredState) :
    (performSubmit env st1).2.2.opened = (performSubmit env st1).2.2.closed := by
  unfold performSubmit
  dsimp only
  repeat' split <;> try rfl

/-- The retry loop neither exhausts its fuel nor lets the tick counter pass
the timeout, whenever the fuel exceeds the remaining time budget. -/
lemma connectLoopGo_bounded (env : Nat → ConnEvent) (T : Nat) :
    ∀ fuel elapsed i, elapsed ≤ T → T < elapsed + fuel →
      connectLoopGo env T fuel elapsed i ≠ .outOfFuel ∧
      (connectLoopGo env T fuel elapsed i).elapsedOf ≤ T := by
  intro fuel
  induction fuel with
  | zero => intro elapsed i h1 h2; omega
  | succ fuel ih =>
    intro elapsed i h1 h2
    simp only [connectLoopGo]
    cases henv : env i with
    | success modeOk =>
      cases modeOk <;> exact ⟨by simp, by simpa [ConnResult.elapsedOf] using h1⟩
    | otherError => exact ⟨by simp, by simpa [ConnResult.elapsedOf] using h1⟩
    | busy adv waitOk =>
      dsimp only
      by_cases hT : T ≤ elapsed
      · rw [if_pos hT]
        exact ⟨by simp, by simpa [ConnResult.elapsedOf] using h1⟩
      · rw [if_neg hT]
        have hadv : max 1 (min adv (min (T - elapsed) 500)) ≤ T - elapsed := by
          have h3 : min adv (min (T - elapsed) 500) ≤ T - elapsed :=
            le_trans (Nat.min_le_right _ _) (Nat.min_le_left _ _)
          exact Nat.max_le.mpr ⟨by omega, h3⟩
        have hone : 1 ≤ max 1 (min adv (min (T - elapsed) 500)) :=
          Nat.le_max_left _ _
        cases waitOk with
        | true =>
          simp only [if_true]
          exact ih (elapsed + max 1 (min adv (min (T - elapsed) 500))) (i + 1)
            (by omega) (by omega)
        | false =>
          simp only [Bool.false_eq_true, if_false]
          by_cases hT2 : T ≤ elapsed + max 1 (min adv (min (T - elapsed) 500))
          · rw [if_pos hT2]
            exact ⟨by simp, by simp [ConnResult.elapsedOf]; omega⟩
          · rw [if_neg hT2]
            exact ih (elapsed + max 1 (min adv (min (T - elapsed) 500))) (i + 1)
              (by omega) (by omega)

/-- When the peer reports busy forever, the loop ends in `timedOut` with a
final tick counter at most the timeout. -/
lemma connectLoopGo_timedOut_of_all_busy (env : Nat → ConnEvent) (T : Nat)
    (hb : ∀ i, (env i).isBusy = true) :
    ∀ fuel elapsed i, elapsed ≤ T → T < elapsed + fuel →
      ∃ e, e ≤ T ∧ connectLoopGo env T fuel elapsed i = .timedOut e := by
  intro fuel
  induction fuel with
  | zero => intro elapsed i h1 h2; omega
  | succ fuel ih =>
    intro elapsed i h1 h2
    simp only [connectLoopGo]
    cases henv : env i with
    | success modeOk =>
      have := hb i
      rw [henv] at this
      simp [ConnEvent.isBusy] at this
    | otherError =>
      have := hb i
      rw [henv] at this
      simp [ConnEvent.isBusy] at this
    | busy adv waitOk =>
      dsimp only
      by_cases hT : T ≤ elapsed
      · rw [if_pos hT]
        exact ⟨elapsed, h1, rfl⟩
      · rw [if_neg hT]
        have hadv : max 1 (min adv (min (T - elapsed) 500)) ≤ T - elapsed := by
          have h3 : min adv (min (T - elapsed) 500) ≤ T - elapsed :=
            le_trans (Nat.min_le_right _ _) (Nat.min_le_left _ _)
          exact Nat.max_le.mpr ⟨by omega, h3⟩
        have hone : 1 ≤ max 1 (min adv (min (T - elapsed) 500)) :=
          Nat.le_max_left _ _
        cases waitOk with
        | true =>
          simp only [if_true]
          exact ih (elapsed + max 1 (min adv (min (T - elapsed) 500))) (i + 1)
            (by omega) (by omega)
        | false =>
          simp only [Bool.false_eq_true, if_false]
          by_cases hT2 : T ≤ elapsed + max 1 (min adv (min (T - elapsed) 500))
          · rw [if_pos hT2]
            exact ⟨_, by omega, rfl⟩
          · rw [if_neg hT2]
            exact ih (elapsed + max 1 (min adv (min (T - elapsed) 500))) (i + 1)
              (by omega) (by omega)

/-- A list is a Boolean prefix of itself followed by anything. -/
lemma isPrefixOf_append_self (l t : List Char) :
    l.isPrefixOf (l ++ t) = true := by
  simp [List.isPrefixOf_iff_prefix]

/-- The one-step equation of `findAfter` on a non-empty haystack. -/
lemma findAfter_cons (needle : List Char) (x : Char) (rest : List Char) :
    findAfter needle (x :: rest) =
      if needle.isPrefixOf (x :: rest) then
        some ((x :: rest).drop needle.length)
      else findAfter needle rest := rfl

/-- The one-step equation of `unescapeUntilQuote` on a non-empty input. -/
lemma unescapeUntilQuote_cons (c : Char) (rest : List Char) :
    unescapeUntilQuote (c :: rest) =
      if c = '\\' then
        match rest with
        | [] => [c]
        | d :: rest2 => unescapeChar d :: unescapeUntilQuote rest2
      else if c = '"' then []
      else c :: unescapeUntilQuote rest := by
  cases rest <;> rfl

/-- The scan finds a needle placed right after one non-matching head
character and returns exactly the part after it. -/
lemma findAfter_head_append (c : Char) (needle t : List Char)
    (hne : needle.head? ≠ some c) (hn : needle ≠ []) :
    findAfter needle (c :: (needle ++ t)) = some t := by
  obtain ⟨n0, ns, rfl⟩ : ∃ n0 ns, needle = n0 :: ns := by
    cases needle with
    | nil => exact absurd rfl hn
    | cons n0 ns => exact ⟨n0, ns, rfl⟩
  have hc : n0 ≠ c := by simpa using hne
  rw [findAfter_cons, if_neg (by simp [List.isPrefixOf, hc])]
  rw [List.cons_append, findAfter_cons,
    if_pos (by rw [← List.cons_append]; exact isPrefixOf_append_self _ _)]
  rw [← List.cons_append, List.drop_left]

/-- Unescaping undoes escaping: decoding an escaped value followed by its
closing quote recovers the value, whatever follows the quote. -/
lemma unescapeUntilQuote_escape (v t : List Char) :
    unescapeUntilQuote (jsonEscape v ++ '"' :: t) = v := by
  induction v with
  | nil =>
    show unescapeUntilQuote ('"' :: t) = []
    rw [unescapeUntilQuote_cons, if_neg (by decide), if_pos rfl]
  | cons c v ih =>
    have hcons : jsonEscape (c :: v) = escapeChar c ++ jsonEscape v := by
      simp [jsonEscape]
    rw [hcons]
    unfold escapeChar
    split_ifs with h1 h2 h3 h4 h5
    · subst h1
      show unescapeUntilQuote ('\\' :: '"' :: (jsonEscape v ++ '"' :: t)) =
        '"' :: v
      rw [unescapeUntilQuote_cons, if_pos rfl]
      show unescapeChar '"' :: unescapeUntilQuote (jsonEscape v ++ '"' :: t) =
        '"' :: v
      rw [ih]
      rfl
    · subst h2
      show unescapeUntilQuote ('\\' :: '\\' :: (jsonEscape v ++ '"' :: t)) =
        '\\' :: v
      rw [unescapeUntilQuote_cons, if_pos rfl]
      show unescapeChar '\\' :: unescapeUntilQuote (jsonEscape v ++ '"' :: t) =
        '\\' :: v
      rw [ih]
      rfl
    · subst h3
      show unescapeUntilQuote ('\\' :: 'n' :: (jsonEscape v ++ '"' :: t)) =
        '\n' :: v
      rw [unescapeUntilQuote_cons, if_pos rfl]
      show unescapeChar 'n' :: unescapeUntilQuote (jsonEscape v ++ '"' :: t) =
        '\n' :: v
      rw [ih]
      rfl
    · subst h4
      show unescapeUntilQuote ('\\' :: 'r' :: (jsonEscape v ++ '"' :: t)) =
        '\x0d' :: v
      rw [unescapeUntilQuote_cons, if_pos rfl]
      show unescapeChar 'r' :: unescapeUntilQuote (jsonEscape v ++ '"' :: t) =
        '\x0d' :: v
      rw [ih]
      rfl
    · subst h5
      show unescapeUntilQuote ('\\' :: 't' :: (jsonEscape v ++ '"' :: t)) =
        '\t' :: v
      rw [unescapeUntilQuote_cons, if_pos rfl]
      show unescapeChar 't' :: unescapeUntilQuote (jsonEscape v ++ '"' :: t) =
        '\t' :: v
      rw [ih]
      rfl
    · show unescapeUntilQuote (c :: (jsonEscape v ++ '"' :: t)) = c :: v
      rw [unescapeUntilQuote_cons, if_neg h2, if_neg h1, ih]

/-- For keys below the pattern-buffer limit, the encoded field document is
one `\x7b` followed by the first search pattern and the escaped value. -/
lemma encodeField_eq (key v : List Char) (hk : key.length ≤ 249) :
    encodeField key v =
      '{' :: (keyPattern key ++ (jsonEscape v ++ ['"', '}'])) := by
  unfold encodeField keyPattern
  rw [List.take_of_length_le hk]
  simp

/-! Claim theorems. -/

/-- C1: every `QueryDcAgent` call whose (possibly failing) transport
delivers a NUL-free response returns `MFASRV_DECISION_ALLOW` — connect,
write and read failures fail open as the claim states, but the call can
never return `MFASRV_DECISION_DENY` either, because `ParseDecisionFromJson`
compares `keyLen = 12` bytes against its 11-character key and therefore
demands a NUL byte right after `"decision":`.  This contradicts the claim's
Deny-iff-decision-code-2 clause on the response `\x7b"decision":2\x7d`. -/
theorem c1_query_dc_agent_always_allow (env : DcEnv)
    (user domain ip ws : List Char) (proto timeoutMs : Nat)
    (hresp : ∀ resp, env.io.readResult = some resp → '\x00' ∉ resp) :
    (QueryDcAgent env user domain ip ws proto timeoutMs).1 =
      MFASRV_DECISION_ALLOW := by
  unfold QueryDcAgent
  cases hb : buildQueryJson user domain ip ws proto with
  | none => rfl
  | some q =>
    cases hc : ConnectToPipe env.connEnv timeoutMs with
    | handle e =>
      show SendAndReceive env.io = MFASRV_DECISION_ALLOW
      unfold SendAndReceive
      cases hw : env.io.writeOk with
      | false => rfl
      | true =>
        cases hr : env.io.readResult with
        | none => simp
        | some resp =>
          simp [ParseDecisionFromJson_eq_allow resp (hresp resp hr)]
    | failed e => rfl
    | modeFailed e => rfl
    | timedOut e => rfl
    | outOfFuel => rfl

/-- Witness for C1, which is also the failing input of the claim: the peer
responds `\x7b"decision":2\x7d` over a healthy transport, and the call still
returns `MFASRV_DECISION_ALLOW` (0) where the claim requires Deny (2). -/
theorem c1_query_dc_agent_always_allow_witness :
    (QueryDcAgent
      ⟨fun _ => .success true, ⟨true, some ("\x7b\"decision\":2\x7d".toList)⟩⟩
      ("jsmith".toList) ("CONTOSO".toList) [] [] 1 3000).1 =
        MFASRV_DECISION_ALLOW := by
  apply c1_query_dc_agent_always_allow
  intro resp h
  have hr : resp = ("\x7b\"decision\":2\x7d".toList) := by
    simpa using h.symm
  subst hr
  decide

/-- C3: the DC-side connect keeps retrying while the peer reports busy, but
the tick counter (advanced only by the waits) never exceeds the timeout; on
expiry it returns the timed-out result (`INVALID_HANDLE_VALUE`) rather than
blocking on, and the loop cannot run forever; the endpoint-side
`MfaPipeConnect` returns `E_FAIL` with no handle when the pipe does not
become available within its wait. -/
theorem c3_connect_total_elapsed_bounded :
    (∀ (env : Nat → ConnEvent) (timeoutMs : Nat),
      ConnectToPipe env timeoutMs ≠ .outOfFuel ∧
      (ConnectToPipe env timeoutMs).elapsedOf ≤ timeoutMs ∧
      ((∀ i, (env i).isBusy = true) →
        ∃ e, e ≤ timeoutMs ∧ ConnectToPipe env timeoutMs = .timedOut e)) ∧
    (∀ createOk : Bool, mfaPipeConnect false createOk = (.eFail, false)) := by
  constructor
  · intro env T
    refine ⟨(connectLoopGo_bounded env T (T + 1) 0 0 (by omega) (by omega)).1,
      (connectLoopGo_bounded env T (T + 1) 0 0 (by omega) (by omega)).2, ?_⟩
    intro hb
    exact connectLoopGo_timedOut_of_all_busy env T hb (T + 1) 0 0
      (by omega) (by omega)
  · intro createOk
    rfl

/-- Witness for C3: an always-busy peer with 100-tick waits against the
default 3000 ms timeout ends in `timedOut` within the ceiling. -/
theorem c3_connect_total_elapsed_bounded_witness :
    ConnectToPipe (fun _ => .busy 100 true) 3000 ≠ .outOfFuel ∧
    (∃ e, e ≤ 3000 ∧
      ConnectToPipe (fun _ => .busy 100 true) 3000 = .timedOut e) :=
  ⟨(c3_connect_total_elapsed_bounded.1 (fun _ => .busy 100 true) 3000).1,
   (c3_connect_total_elapsed_bounded.1 (fun _ => .busy 100 true) 3000).2.2
     (fun _ => rfl)⟩

/-- C4: on every exit path of the evaluate call (`QueryDcAgent`) and of the
evaluate/OTP-submit call (`_PerformMfaCheck`), each opened pipe handle is
closed before the call returns. -/
theorem c4_channel_closed_on_every_path :
    (∀ (env : DcEnv) (user domain ip ws : List Char) (proto timeoutMs : Nat),
      (QueryDcAgent env user domain ip ws proto timeoutMs).2.opened =
        (QueryDcAgent env user domain ip ws proto timeoutMs).2.closed) ∧
    (∀ (env : EpEnv) (st : CredState),
      (performMfaCheck env st).2.2.opened =
        (performMfaCheck env st).2.2.closed) := by
  constructor
  · intro env user domain ip ws proto timeoutMs
    unfold QueryDcAgent
    cases buildQueryJson user domain ip ws proto with
    | none => rfl
    | some q => cases ConnectToPipe env.connEnv timeoutMs <;> rfl
  · intro env st
    unfold performMfaCheck
    dsimp only
    repeat' split
    all_goals first
      | rfl
      | exact performSubmit_trace_balanced _ _

/-- C5 counterexample: after `ReportResult` the password buffer is not
zeroed, and after `SetDeselected` the state machine is not back at
`NoChallenge` (the required flag and the challenge identifier survive),
contradicting the claim at this concrete state. -/
theorem c5_counterexample :
    (reportResult ⟨['u'], ['p'], ['1'], ['c'], true, false⟩).password = ['p'] ∧
    (setDeselected ⟨['u'], ['p'], ['1'], ['c'], true, false⟩).mfaRequired = true ∧
    (setDeselected ⟨['u'], ['p'], ['1'], ['c'], true, false⟩).challengeId = ['c'] :=
  ⟨rfl, rfl, rfl⟩

/-- C5 amended: `ReportResult` resets both MFA flags and zeroes the OTP and
challenge identifier but leaves the password untouched; `SetDeselected`
zeroes the password and OTP but leaves the MFA flags and challenge
identifier untouched; only the destructor zeroes password, OTP and
challenge identifier together. -/
theorem c5_amended_partial_reset (st : CredState) :
    (reportResult st).mfaRequired = false ∧
    (reportResult st).mfaCompleted = false ∧
    (reportResult st).challengeId = [] ∧
    (reportResult st).otp = [] ∧
    (reportResult st).password = st.password ∧
    (setDeselected st).password = [] ∧
    (setDeselected st).otp = [] ∧
    (setDeselected st).mfaRequired = st.mfaRequired ∧
    (setDeselected st).mfaCompleted = st.mfaCompleted ∧
    (setDeselected st).challengeId = st.challengeId ∧
    (credDestructor st).password = [] ∧
    (credDestructor st).otp = [] ∧
    (credDestructor st).challengeId = [] :=
  ⟨rfl, rfl, rfl, rfl, rfl, rfl, rfl, rfl, rfl, rfl, rfl, rfl, rfl⟩

/-- C6: round-trip — for every (NUL-free) key below the pattern-buffer
limit and every NUL-free value containing a quote, a backslash and a
newline, encoding the value with `JsonAppendEscaped` as the key's field and
extracting that field with `JsonGetString` yields the original value, with
the decoder reporting success. -/
theorem c6_encode_decode_roundtrip (key v : List Char)
    (hk : key.length ≤ 240) (hknul : '\x00' ∉ key) (hvnul : '\x00' ∉ v)
    (hq : '"' ∈ v) (hbsl : '\\' ∈ v) (hnl : '\n' ∈ v) :
    jsonGetString (encodeField key v) key = (true, v) := by
  have hkp : keyPattern key ≠ [] := by simp [keyPattern]
  have hhead : (keyPattern key).head? ≠ some '{' := by simp [keyPattern]
  unfold jsonGetString
  rw [encodeField_eq key v (by omega),
    findAfter_head_append '{' (keyPattern key) (jsonEscape v ++ ['"', '}'])
      hhead hkp]
  have hdec :
      unescapeUntilQuote (jsonEscape v ++ ['"', '}']) = v :=
    unescapeUntilQuote_escape v ['}']
  have hvne : v.isEmpty = false := by
    cases v with
    | nil => simp at hq
    | cons a l => rfl
  simp [hdec, hvne]

/-- Witness for C6 with the key `status` and the value made of exactly a
quote, a backslash and a newline. -/
theorem c6_encode_decode_roundtrip_witness :
    jsonGetString (encodeField ("status".toList) ['"', '\\', '\n'])
      ("status".toList) = (true, ['"', '\\', '\n']) :=
  c6_encode_decode_roundtrip ("status".toList) ['"', '\\', '\n']
    (by decide) (by decide) (by decide) (by decide) (by decide) (by decide)

/-- C7 counterexample: in the document `\x7b"k":""\x7d` the key pattern for
`k` occurs, yet `JsonGetString` reports `FALSE` because the extracted value
is empty — present-but-empty is not distinct from absent, contradicting the
claim. -/
theorem c7_counterexample :
    patternFound ("\x7b\"k\":\"\"\x7d".toList) ("k".toList) = true ∧
    (jsonGetString ("\x7b\"k\":\"\"\x7d".toList) ("k".toList)).1 = false := by
  decide

/-- C7 amended: `JsonGetString` returns `TRUE` exactly when one of its two
key patterns occurs and the extracted value is non-empty; a key present
with an empty value is reported identically to an absent key. -/
theorem c7_amended_present_empty_reported_absent (json key : List Char) :
    (jsonGetString json key).1 =
      (patternFound json key && !(jsonGetString json key).2.isEmpty) := by
  unfold jsonGetString patternFound
  cases h1 : findAfter (keyPattern key) json <;>
    cases h2 : findAfter (keyPatternSpace key) json <;> simp

/-- C8: the string decoder does accept both spacing variants (shown here on
the concrete field), but the integer decision parser accepts neither: with
and without a space after the colon, `\x7b"decision":2\x7d` and
`\x7b"decision": 2\x7d` both fall back to `MFASRV_DECISION_ALLOW` instead
of parsing to 2, because the parser's 12-byte key comparison includes the
key's NUL terminator. -/
theorem c8_spacing_variants_evaluation :
    ParseDecisionFromJson ("\x7b\"decision\":2\x7d".toList) =
      MFASRV_DECISION_ALLOW ∧
    ParseDecisionFromJson ("\x7b\"decision\": 2\x7d".toList) =
      MFASRV_DECISION_ALLOW ∧
    jsonGetString ("\x7b\"decision\":\"2\"\x7d".toList) ("decision".toList) =
      (true, ['2']) ∧
    jsonGetString ("\x7b\"decision\": \"2\"\x7d".toList) ("decision".toList) =
      (true, ['2']) := by
  decide

/-- C2 counterexample: a first response with status `approved` sets the
completed flag after a single round trip (one send, no submit request),
contradicting the claim that `_bMfaCompleted` can only become true after a
second round trip that submits a captured challenge identifier. -/
theorem c2_counterexample :
    ((performMfaCheck
        ⟨true, true, true, some ("\x7b\"status\":\"approved\"\x7d".toList),
          true, none, []⟩
        ⟨['u'], ['p'], [], [], false, false⟩).2.1.mfaCompleted = true) ∧
    ((performMfaCheck
        ⟨true, true, true, some ("\x7b\"status\":\"approved\"\x7d".toList),
          true, none, []⟩
        ⟨['u'], ['p'], [], [], false, false⟩).2.2.sends = 1) ∧
    ((performMfaCheck
        ⟨true, true, true, some ("\x7b\"status\":\"approved\"\x7d".toList),
          true, none, []⟩
        ⟨['u'], ['p'], [], [], false, false⟩).2.2.submitted = none) := by
  decide

/-- C2 amended: the completed flag becomes true in exactly two situations —
the initial response's status begins with `a` (approved outright, one round
trip), or the status begins with `m` and a pending OTP triggers the second
round trip, which submits exactly the challenge identifier captured from
that response and receives a status beginning with `a`.  A denial, an
unparsable response, or a transport failure at the submit step never sets
the flag, and in both completing situations the call returns `S_OK`. -/
theorem c2_amended_completion_characterization (env : EpEnv)
    (st : CredState) (h0 : st.mfaCompleted = false)
    (hdone : (performMfaCheck env st).2.1.mfaCompleted = true) :
    ∃ resp1, env.read1 = some resp1 ∧ (performMfaCheck env st).1 = .sOk ∧
      ((jsonGetString resp1 statusKey).2.head? = some 'a' ∨
        ((jsonGetString resp1 statusKey).2.head? = some 'm' ∧
          st.otp ≠ [] ∧ env.send2Ok = true ∧
          (performMfaCheck env st).2.1.challengeId =
            (jsonGetString resp1 challengeIdKey).2 ∧
          (performMfaCheck env st).2.2.submitted =
            some (buildSubmitJson ((jsonGetString resp1 challengeIdKey).2)
              st.otp) ∧
          ∃ resp2, env.read2 = some resp2 ∧
            (jsonGetString resp2 statusKey).2.head? = some 'a')) := by
  obtain ⟨w, cr, s1, r1, s2, r2, ws⟩ := env
  cases w with
  | false =>
    simp [performMfaCheck, mfaPipeConnect, Hr.failed, h0] at hdone
  | true =>
  cases cr with
  | false =>
    simp [performMfaCheck, mfaPipeConnect, Hr.failed, h0] at hdone
  | true =>
  cases s1 with
  | false =>
    simp [performMfaCheck, mfaPipeConnect, Hr.failed, h0] at hdone
  | true =>
  cases r1 with
  | none =>
    simp [performMfaCheck, mfaPipeConnect, Hr.failed, h0] at hdone
  | some resp1 =>
  refine ⟨resp1, rfl, ?_⟩
  rcases hsv : (jsonGetString resp1 statusKey).2 with _ | ⟨c, rest⟩
  · simp [performMfaCheck, mfaPipeConnect, Hr.failed, hsv, h0] at hdone
  by_cases hca : c = 'a'
  · subst hca
    constructor
    · simp [performMfaCheck, mfaPipeConnect, Hr.failed, hsv]
    · exact Or.inl rfl
  by_cases hcd : c = 'd'
  · subst hcd
    simp [performMfaCheck, mfaPipeConnect, Hr.failed, hsv, hca, h0] at hdone
  by_cases hcm : c = 'm'
  case neg =>
    simp [performMfaCheck, mfaPipeConnect, Hr.failed, hsv, hca, hcd, hcm,
      h0] at hdone
  subst hcm
  cases hotp : st.otp with
  | nil =>
    simp [performMfaCheck, mfaPipeConnect, Hr.failed, hsv, hca, hcd,
      hotp] at hdone
  | cons o os =>
  cases s2 with
  | false =>
    simp [performMfaCheck, performSubmit, mfaPipeConnect, Hr.failed, hsv,
      hca, hcd, hotp] at hdone
  | true =>
  cases r2 with
  | none =>
    simp [performMfaCheck, performSubmit, mfaPipeConnect, Hr.failed, hsv,
      hca, hcd, hotp] at hdone
  | some resp2 =>
  by_cases ha2 : (jsonGetString resp2 statusKey).2.head? = some 'a'
  · constructor
    · simp [performMfaCheck, performSubmit, mfaPipeConnect, Hr.failed, hsv,
        hca, hcd, hotp, ha2]
    · refine Or.inr ⟨rfl, by simp, rfl, ?_, ?_, resp2, rfl, ha2⟩
      · simp [performMfaCheck, performSubmit, mfaPipeConnect, Hr.failed,
          hsv, hca, hcd, hotp, ha2]
      · simp [performMfaCheck, performSubmit, mfaPipeConnect, Hr.failed,
          hsv, hca, hcd, hotp, ha2]
  · by_cases hd2 : (jsonGetString resp2 statusKey).2.head? = some 'd'
    · simp [performMfaCheck, performSubmit, mfaPipeConnect, Hr.failed, hsv,
        hca, hcd, hotp, ha2, hd2, h0] at hdone
    · simp [performMfaCheck, performSubmit, mfaPipeConnect, Hr.failed, hsv,
        hca, hcd, hotp, ha2, hd2, h0] at hdone

/-- Witness for C2's amended characterization at a first-trip approval. -/
theorem c2_amended_completion_characterization_witness :
    ∃ resp1,
      (⟨true, true, true, some ("\x7b\"status\":\"approved\"\x7d".toList),
        true, none, []⟩ : EpEnv).read1 = some resp1 ∧
      (performMfaCheck
        ⟨true, true, true, some ("\x7b\"status\":\"approved\"\x7d".toList),
          true, none, []⟩
        ⟨['u'], ['p'], [], [], false, false⟩).1 = .sOk ∧
      ((jsonGetString resp1 statusKey).2.head? = some 'a' ∨
        ((jsonGetString resp1 statusKey).2.head? = some 'm' ∧
          (⟨['u'], ['p'], [], [], false, false⟩ : CredState).otp ≠ [] ∧
          (⟨true, true, true,
            some ("\x7b\"status\":\"approved\"\x7d".toList),
            true, none, []⟩ : EpEnv).send2Ok = true ∧
          (performMfaCheck
            ⟨true, true, true,
              some ("\x7b\"status\":\"approved\"\x7d".toList),
              true, none, []⟩
            ⟨['u'], ['p'], [], [], false, false⟩).2.1.challengeId =
            (jsonGetString resp1 challengeIdKey).2 ∧
          (performMfaCheck
            ⟨true, true, true,
              some ("\x7b\"status\":\"approved\"\x7d".toList),
              true, none, []⟩
            ⟨['u'], ['p'], [], [], false, false⟩).2.2.submitted =
            some (buildSubmitJson ((jsonGetString resp1 challengeIdKey).2)
              (⟨['u'], ['p'], [], [], false, false⟩ : CredState).otp) ∧
          ∃ resp2,
            (⟨true, true, true,
              some ("\x7b\"status\":\"approved\"\x7d".toList),
              true, none, []⟩ : EpEnv).read2 = some resp2 ∧
            (jsonGetString resp2 statusKey).2.head? = some 'a')) :=
  c2_amended_completion_characterization
    ⟨true, true, true, some ("\x7b\"status\":\"approved\"\x7d".toList),
      true, none, []⟩
    ⟨['u'], ['p'], [], [], false, false⟩ rfl (by decide)

/-- C9: `_PerformMfaCheck` classifies the decoded `status` value by its
first character alone — `a` is approval (completed set), `d` is an explicit
denial, `m` is a second-factor challenge (required flag set, challenge id
captured, and `S_FALSE` surfaced when no OTP is pending), and every other
decoded value, including an absent or empty status, produces the fail-open
`E_FAIL`. -/
theorem c9_status_classified_by_first_character (env : EpEnv)
    (st : CredState) (resp1 : List Char) (hw : env.waitOk = true)
    (hc : env.createOk = true) (hs1 : env.send1Ok = true)
    (hr1 : env.read1 = some resp1) :
    ((jsonGetString resp1 statusKey).2 = [] →
      (performMfaCheck env st).1 = .eFail) ∧
    (∀ c rest, (jsonGetString resp1 statusKey).2 = c :: rest →
      (c = 'a' → (performMfaCheck env st).1 = .sOk ∧
        (performMfaCheck env st).2.1.mfaCompleted = true) ∧
      (c = 'd' → (performMfaCheck env st).1 = .eAccessDenied) ∧
      (c = 'm' → (performMfaCheck env st).2.1.mfaRequired = true ∧
        (performMfaCheck env st).2.1.challengeId =
          (jsonGetString resp1 challengeIdKey).2 ∧
        (st.otp = [] → (performMfaCheck env st).1 = .sFalse)) ∧
      (c ≠ 'a' → c ≠ 'd' → c ≠ 'm' →
        (performMfaCheck env st).1 = .eFail)) := by
  obtain ⟨w, cr, s1, r1, s2, r2, ws⟩ := env
  cases w
  · cases hw
  cases cr
  · cases hc
  cases s1
  · cases hs1
  cases r1 with
  | none => cases hr1
  | some resp1' =>
  have hresp : resp1' = resp1 := by
    simpa using hr1
  subst hresp
  constructor
  · intro hsv
    simp [performMfaCheck, mfaPipeConnect, Hr.failed, hsv]
  · intro c rest hsv
    refine ⟨?_, ?_, ?_, ?_⟩
    · intro hca
      subst hca
      constructor <;>
        simp [performMfaCheck, mfaPipeConnect, Hr.failed, hsv]
    · intro hcd
      subst hcd
      simp [performMfaCheck, mfaPipeConnect, Hr.failed, hsv]
    · intro hcm
      subst hcm
      refine ⟨?_, ?_, ?_⟩
      · cases hotp : st.otp with
        | nil =>
          simp [performMfaCheck, performSubmit, mfaPipeConnect, Hr.failed,
            hsv, hotp]
        | cons o os =>
          cases s2 <;> cases r2 <;>
            simp [performMfaCheck, performSubmit, mfaPipeConnect,
              Hr.failed, hsv, hotp] <;>
            split_ifs <;> rfl
      · cases hotp : st.otp with
        | nil =>
          simp [performMfaCheck, performSubmit, mfaPipeConnect, Hr.failed,
            hsv, hotp]
        | cons o os =>
          cases s2 <;> cases r2 <;>
            simp [performMfaCheck, performSubmit, mfaPipeConnect,
              Hr.failed, hsv, hotp] <;>
            split_ifs <;> rfl
      · intro hotp
        simp [performMfaCheck, performSubmit, mfaPipeConnect, Hr.failed,
          hsv, hotp]
    · intro hca hcd hcm
      simp [performMfaCheck, mfaPipeConnect, Hr.failed, hsv, hca, hcd, hcm]

/-- Witness for C9 at an explicit denial status. -/
theorem c9_status_classified_by_first_character_witness :
    (performMfaCheck
      ⟨true, true, true, some ("\x7b\"status\":\"denied\"\x7d".toList),
        true, none, []⟩
      ⟨['u'], ['p'], [], [], false, false⟩).1 = .eAccessDenied :=
  ((c9_status_classified_by_first_character
      ⟨true, true, true, some ("\x7b\"status\":\"denied\"\x7d".toList),
        true, none, []⟩
      ⟨['u'], ['p'], [], [], false, false⟩
      ("\x7b\"status\":\"denied\"\x7d".toList)
      rfl rfl rfl rfl).2 'd' ("enied".toList) (by decide)).2.1 rfl

/-- C10: when the stored username or password is empty, `GetSerialization`
returns `S_OK` with `CPGSR_NO_CREDENTIAL_NOT_FINISHED` and a prompt
message, opens no pipe to the agent, and leaves the credential state
(including the MFA fields) unchanged. -/
theorem c10_empty_credentials_short_circuit (env : EpEnv) (packOk : Bool)
    (st : CredState) (h : st.username = [] ∨ st.password = []) :
    (getSerialization env packOk st).hr = .sOk ∧
    (getSerialization env packOk st).cpgsr = .noCredentialNotFinished ∧
    (getSerialization env packOk st).text ≠ none ∧
    (getSerialization env packOk st).state = st ∧
    (getSerialization env packOk st).trace.opened = 0 := by
  unfold getSerialization
  rcases h with h | h
  · simp [h]
  · by_cases hu : st.username.isEmpty
    · simp [hu]
    · simp [hu, h]

/-- Witness for C10 at an empty username. -/
theorem c10_empty_credentials_short_circuit_witness :
    (getSerialization ⟨true, true, true, none, true, none, []⟩ true
      ⟨[], ['p'], [], [], false, false⟩).cpgsr = .noCredentialNotFinished ∧
    (getSerialization ⟨true, true, true, none, true, none, []⟩ true
      ⟨[], ['p'], [], [], false, false⟩).trace.opened = 0 :=
  ⟨(c10_empty_credentials_short_circuit _ true _ (Or.inl rfl)).2.1,
   (c10_empty_credentials_short_circuit _ true _ (Or.inl rfl)).2.2.2.2⟩

end MfaSrv
